import Mathlib

/-!
# BrainRot interpreter: a shallow embedding

This file embeds the BrainRot language pipeline (tokenizer, recursive-descent
parser, tree-walking evaluator) in Lean 4 and proves properties of it.
The embedding follows the TypeScript source class by class:
`BrainRotTokenizer.tokenize`, `BrainRotParser.parse`,
`BrainRotInterpreter.interpret` and the entry point `executeBrainRot`.

Modelling decisions (each flagged where it is used):
* JavaScript IEEE-754 doubles are modelled as exact rationals plus the
  special values NaN / Infinity / -Infinity (`JSNum`).  Rounding, negative
  zero and the shortest-round-trip decimal rendering of non-integral
  numbers are not modelled; every program examined by a theorem below
  computes and prints only small integers, where the model is exact.
* The host exception mechanism (TypeScript `throw`/`catch`) is modelled by
  an `Except` value paired with the state at the moment of the throw,
  since the mutable fields keep their values when an exception unwinds.
* Recursion in the evaluator and parser (while-loops, function calls,
  nested statements) is made total with an explicit fuel parameter; fuel
  exhaustion is a distinguished outcome (`Err.fuelOut`) that no real run
  exhibits and that the entry point maps to `none`.
-/

namespace BrainRot

/-! ## JavaScript numbers and values -/

/-- An exact rational in lowest terms with positive denominator,
represented over the kernel-friendly `Int`/`Nat` primitives.  All
constructions below go through `Frac.norm` (or preserve normal form), so
structural equality coincides with equality of rationals. -/
structure Frac where
  num : Int
  den : Nat
deriving DecidableEq

/-- Normalize `n / d` (`d` positive) to lowest terms. -/
def Frac.norm (n : Int) (d : Nat) : Frac :=
  let g := n.natAbs.gcd d
  if g = 0 then { num := 0, den := 1 }
  else { num := n.tdiv (g : Int), den := d / g }

/-- The rational `n / 1`. -/
def Frac.ofInt (n : Int) : Frac := { num := n, den := 1 }

/-- Addition. -/
def Frac.add (a b : Frac) : Frac :=
  Frac.norm (a.num * (b.den : Int) + b.num * (a.den : Int)) (a.den * b.den)

/-- Negation (normal form is preserved). -/
def Frac.neg (a : Frac) : Frac := { num := -a.num, den := a.den }

/-- Subtraction. -/
def Frac.sub (a b : Frac) : Frac := Frac.add a (Frac.neg b)

/-- Multiplication. -/
def Frac.mul (a b : Frac) : Frac :=
  Frac.norm (a.num * b.num) (a.den * b.den)

/-- Division (callers guard against a zero divisor). -/
def Frac.div (a b : Frac) : Frac :=
  let n := a.num * (b.den : Int)
  let d := (a.den : Int) * b.num
  if d < 0 then Frac.norm (-n) (-d).toNat else Frac.norm n d.toNat

/-- Strict order (cross-multiplication; denominators are positive). -/
def Frac.blt (a b : Frac) : Bool :=
  decide (a.num * (b.den : Int) < b.num * (a.den : Int))

/-- Is the rational zero? -/
def Frac.isZero (a : Frac) : Bool := a.num == 0

/-- `10 ^ n` as a rational. -/
def Frac.pow10 : Nat → Frac
  | 0 => Frac.ofInt 1
  | n + 1 => Frac.mul (Frac.ofInt 10) (Frac.pow10 n)

/-- A JavaScript number: a finite value (modelled as an exact rational),
`NaN`, `Infinity` or `-Infinity`. -/
inductive JSNum where
  | fin (q : Frac)
  | nan
  | inf
  | negInf
deriving DecidableEq

/-- JS `-x` on numbers. -/
def jnNeg : JSNum → JSNum
  | .fin q => .fin (Frac.neg q)
  | .nan => .nan
  | .inf => .negInf
  | .negInf => .inf

/-- JS `+` on numbers. -/
def jnAdd : JSNum → JSNum → JSNum
  | .fin a, .fin b => .fin (Frac.add a b)
  | .nan, _ => .nan
  | _, .nan => .nan
  | .inf, .negInf => .nan
  | .negInf, .inf => .nan
  | .inf, _ => .inf
  | _, .inf => .inf
  | .negInf, _ => .negInf
  | _, .negInf => .negInf

/-- JS `-` on numbers (as addition of the negation, which agrees with
IEEE-754 on these cases). -/
def jnSub (a b : JSNum) : JSNum := jnAdd a (jnNeg b)

/-- JS `*` on numbers. -/
def jnMul : JSNum → JSNum → JSNum
  | .nan, _ => .nan
  | _, .nan => .nan
  | .fin a, .fin b => .fin (Frac.mul a b)
  | .inf, .inf => .inf
  | .inf, .negInf => .negInf
  | .negInf, .inf => .negInf
  | .negInf, .negInf => .inf
  | .inf, .fin b => if b.isZero then .nan else if Frac.blt (Frac.ofInt 0) b then .inf else .negInf
  | .fin a, .inf => if a.isZero then .nan else if Frac.blt (Frac.ofInt 0) a then .inf else .negInf
  | .negInf, .fin b => if b.isZero then .nan else if Frac.blt (Frac.ofInt 0) b then .negInf else .inf
  | .fin a, .negInf => if a.isZero then .nan else if Frac.blt (Frac.ofInt 0) a then .negInf else .inf

/-- JS `/` on numbers; division by zero yields an infinity (or NaN for
`0/0`), per IEEE-754.  The sign of zero is not modelled. -/
def jnDiv : JSNum → JSNum → JSNum
  | .nan, _ => .nan
  | _, .nan => .nan
  | .fin a, .fin b =>
      if b.isZero then
        (if a.isZero then .nan else if Frac.blt (Frac.ofInt 0) a then .inf else .negInf)
      else .fin (Frac.div a b)
  | .inf, .inf => .nan
  | .inf, .negInf => .nan
  | .negInf, .inf => .nan
  | .negInf, .negInf => .nan
  | .inf, .fin b => if Frac.blt b (Frac.ofInt 0) then .negInf else .inf
  | .negInf, .fin b => if Frac.blt b (Frac.ofInt 0) then .inf else .negInf
  | .fin _, .inf => .fin (Frac.ofInt 0)
  | .fin _, .negInf => .fin (Frac.ofInt 0)

/-- JS `<` on numbers: any comparison involving NaN is false. -/
def jnLt : JSNum → JSNum → Bool
  | .nan, _ => false
  | _, .nan => false
  | .fin a, .fin b => Frac.blt a b
  | .inf, _ => false
  | .negInf, .negInf => false
  | .negInf, _ => true
  | _, .inf => true
  | _, .negInf => false

/-- JS `>` on numbers, via the swapped `<` (equivalent, NaN included). -/
def jnGt (a b : JSNum) : Bool := jnLt b a

/-- JS `===` on numbers: `NaN === NaN` is false. -/
def jnStrictEq : JSNum → JSNum → Bool
  | .nan, _ => false
  | _, .nan => false
  | .fin a, .fin b => decide (a = b)
  | .inf, .inf => true
  | .negInf, .negInf => true
  | _, _ => false

/-- A BrainRot runtime value: the dynamically tagged union the evaluator
manipulates (JS number, string, boolean, `null`, `undefined`). -/
inductive Value where
  | num (n : JSNum)
  | str (s : String)
  | bool (b : Bool)
  | null
  | undef
deriving DecidableEq

/-- Fractional digits of `r / d` in decimal, up to `fuel` digits
(exact whenever the expansion terminates within `fuel`). -/
def fracDigits : Nat → Nat → Nat → String
  | 0, _, _ => ""
  | fuel + 1, r, d =>
    if r = 0 then ""
    else
      let r10 := r * 10
      String.singleton (Char.ofNat (48 + r10 / d)) ++ fracDigits fuel (r10 % d) d

/-- JS `String(n)` for numbers.  Integers render exactly as JS does;
non-integral finite values render as a (possibly truncated) decimal
expansion rather than JS's shortest-round-trip form — no theorem below
prints a non-integral number. -/
def jnToString : JSNum → String
  | .fin q =>
      if q.den = 1 then toString q.num
      else
        (if q.num < 0 then "-" else "")
          ++ toString (q.num.natAbs / q.den) ++ "."
          ++ fracDigits 20 (q.num.natAbs % q.den) q.den
  | .nan => "NaN"
  | .inf => "Infinity"
  | .negInf => "-Infinity"

/-- JS `String(v)`. -/
def jsToString : Value → String
  | .num n => jnToString n
  | .str v => v
  | .bool b => if b then "true" else "false"
  | .null => "null"
  | .undef => "undefined"

/-- Is a character JS whitespace (the forms ToNumber trims)? -/
def isWsChar (c : Char) : Bool :=
  c = ' ' || c = '\t' || c = '\n' || c = '\r'

/-- Digits to a natural number. -/
def digitsToNat (l : List Char) : Nat :=
  l.foldl (fun acc c => acc * 10 + (c.toNat - 48)) 0

/-- Does the character list spell a simple unsigned decimal numeral
(digits, at most one dot, at least one digit)? -/
def isDecimalShape (l : List Char) : Bool :=
  l.any Char.isDigit
    && l.all (fun c => c.isDigit || c = '.')
    && (l.filter (fun c => c = '.')).length ≤ 1

/-- Split a numeral at its first dot (what the host number parsers do on
these token shapes). -/
def splitAtDot (l : List Char) : List Char × Option (List Char) :=
  match l.span (fun c => !(c = '.')) with
  | (ip, []) => (ip, none)
  | (ip, _ :: fp) => (ip, some fp)

/-- Value of a character list of `isDecimalShape`. -/
def decimalValue (l : List Char) : Frac :=
  match splitAtDot l with
  | (ip, none) => Frac.ofInt (digitsToNat ip : Int)
  | (ip, some fp) =>
      Frac.add (Frac.ofInt (digitsToNat ip : Int))
        (Frac.div (Frac.ofInt (digitsToNat fp : Int)) (Frac.pow10 fp.length))

/-- JS `ToNumber` on strings: trimmed empty string is `0`, a decimal
numeral (with optional sign, or `Infinity`) is its value, anything else
is NaN.  Hex and exponent forms are not modelled; no program examined by
a theorem below coerces a string to a number. -/
def jsStringToNumber (v : String) : JSNum :=
  let t := ((v.toList.dropWhile isWsChar).reverse.dropWhile isWsChar).reverse
  match t with
  | [] => .fin (Frac.ofInt 0)
  | c :: rest =>
    let (neg, body) : Bool × List Char :=
      if c = '-' then (true, rest) else if c = '+' then (false, rest) else (false, c :: rest)
    if body = "Infinity".toList then (if neg then .negInf else .inf)
    else if isDecimalShape body then
      (if neg then .fin (Frac.neg (decimalValue body)) else .fin (decimalValue body))
    else .nan

/-- JS `ToNumber`. -/
def toNumber : Value → JSNum
  | .num n => n
  | .bool b => if b then .fin (Frac.ofInt 1) else .fin (Frac.ofInt 0)
  | .null => .fin (Frac.ofInt 0)
  | .undef => .nan
  | .str v => jsStringToNumber v

/-- Is the value a string (drives the string branch of JS `+`)? -/
def isStrV : Value → Bool
  | .str _ => true
  | _ => false

/-- JS `+`: string concatenation when either side is a string, else
numeric addition after ToNumber. -/
def jsAdd (l r : Value) : Value :=
  if isStrV l || isStrV r then .str (jsToString l ++ jsToString r)
  else .num (jnAdd (toNumber l) (toNumber r))

/-- JS `-` on values. -/
def jsSub (l r : Value) : Value := .num (jnSub (toNumber l) (toNumber r))

/-- JS `*` on values. -/
def jsMul (l r : Value) : Value := .num (jnMul (toNumber l) (toNumber r))

/-- JS `/` on values. -/
def jsDiv (l r : Value) : Value := .num (jnDiv (toNumber l) (toNumber r))

/-- JS `<` (abstract relational comparison): lexicographic when both
sides are strings, else numeric after ToNumber. -/
def jsLt (l r : Value) : Value :=
  match l, r with
  | .str a, .str b => .bool (decide (a < b))
  | _, _ => .bool (jnLt (toNumber l) (toNumber r))

/-- JS `>`, as the swapped relational comparison. -/
def jsGt (l r : Value) : Value :=
  match l, r with
  | .str a, .str b => .bool (decide (b < a))
  | _, _ => .bool (jnGt (toNumber l) (toNumber r))

/-- JS `===`: same type and same value, with `NaN === NaN` false. -/
def jsStrictEq : Value → Value → Bool
  | .num a, .num b => jnStrictEq a b
  | .str a, .str b => decide (a = b)
  | .bool a, .bool b => a == b
  | .null, .null => true
  | .undef, .undef => true
  | _, _ => false

/-- `BrainRotInterpreter.isTruthy`, clause for clause.  Note the number
clause is the source's `value !== 0`, under which NaN counts as truthy
(`NaN !== 0` holds), unlike JS `Boolean(NaN)`. -/
def isTruthy : Value → Bool
  | .null => false
  | .undef => false
  | .bool b => b
  | .num n => match n with | .fin q => !q.isZero | _ => true
  | .str v => decide (0 < v.length)

/-! ## Tokenizer (`BrainRotTokenizer`) -/

/-- Token kinds (the TS string union; `EOF` is the spec's END). -/
inductive TType where
  | KEYWORD
  | IDENTIFIER
  | NUMBER
  | STRING
  | OPERATOR
  | DELIMITER
  | EOF
deriving DecidableEq, BEq

/-- A token: kind, text, 1-based line and column. -/
structure Token where
  type : TType
  value : String
  line : Nat
  column : Nat
deriving DecidableEq

/-- Source position while scanning (the tokenizer's `line`/`column`). -/
structure Pos where
  line : Nat
  column : Nat
deriving DecidableEq

/-- `advance`: step the position over one character. -/
def advPos (p : Pos) (c : Char) : Pos :=
  if c = '\n' then { line := p.line + 1, column := 1 }
  else { line := p.line, column := p.column + 1 }

/-- `skipWhitespace`. -/
def skipWs : List Char → Pos → List Char × Pos
  | c :: cs, p => if isWsChar c then skipWs cs (advPos p c) else (c :: cs, p)
  | [], p => ([], p)

/-- `skipComment`: consume up to (not including) the next newline. -/
def skipComment : List Char → Pos → List Char × Pos
  | c :: cs, p => if c = '\n' then (c :: cs, p) else skipComment cs (advPos p c)
  | [], p => ([], p)

/-- `readNumber`: digits with at most one dot; the extra arguments are the
source's `hasDot` flag and accumulated text. -/
def readNumber : List Char → Pos → Bool → String → String × List Char × Pos
  | c :: cs, p, hasDot, acc =>
    if c.isDigit then readNumber cs (advPos p c) hasDot (acc.push c)
    else if c = '.' && !hasDot then readNumber cs (advPos p c) true (acc.push c)
    else (acc, c :: cs, p)
  | [], p, _, acc => (acc, [], p)

/-- `readString` body: consume until the closing quote, handling escapes.
Stops *before* the closing quote (the caller consumes it, as the source
does after its loop).  A trailing lone backslash appends nothing, exactly
as the source's `peek()` returning the empty string does. -/
def readStringBody (quote : Char) : List Char → Pos → String → String × List Char × Pos
  | c :: cs, p, acc =>
    if c = quote then (acc, c :: cs, p)
    else if c = '\\' then
      match cs with
      | e :: cs' =>
        let mapped : String :=
          if e = 'n' then "\n"
          else if e = 't' then "\t"
          else if e = 'r' then "\r"
          else if e = '\\' then "\\"
          else if e = quote then String.singleton quote
          else String.singleton e
        readStringBody quote cs' (advPos (advPos p c) e) (acc ++ mapped)
      | [] => (acc, [], advPos p c)
    else readStringBody quote cs (advPos p c) (acc.push c)
  | [], p, acc => (acc, [], p)

/-- Is the character an identifier character (`[A-Za-z0-9_]`)? -/
def isIdentChar (c : Char) : Bool :=
  c.isAlpha || c.isDigit || c = '_'

/-- `readIdentifier` accumulation loop. -/
def readIdentChars : List Char → Pos → String → String × List Char × Pos
  | c :: cs, p, acc =>
    if isIdentChar c then readIdentChars cs (advPos p c) (acc.push c)
    else (acc, c :: cs, p)
  | [], p, acc => (acc, [], p)

/-- Generic first-match association-list lookup (models `Map.get`). -/
def lookupA {α : Type} : List (String × α) → String → Option α
  | [], _ => none
  | (k, v) :: rest, key => if k = key then some v else lookupA rest key

/-- Association-list overwrite (models `Map.set`): replace the first
binding of the key, or append a fresh one. -/
def setA {α : Type} : List (String × α) → String → α → List (String × α)
  | [], k, v => [(k, v)]
  | (k', v') :: rest, k, v =>
      if k' = k then (k, v) :: rest else (k', v') :: setA rest k v

/-- The fixed keyword table (`keywords`). -/
def keywordMap : List (String × String) :=
  [("mold", "MOLD"), ("rott", "ROTT"), ("spin", "SPIN"), ("ifrot", "IFROT"),
   ("elsed", "ELSED"), ("fnrot", "FNROT"), ("androt", "ANDROT"),
   ("orrot", "ORROT"), ("notrot", "NOTROT"), ("retrot", "RETROT")]

/-- ASCII lower-casing of one character (`toLowerCase`). -/
def lowerChar (c : Char) : Char :=
  if 'A' ≤ c && c ≤ 'Z' then Char.ofNat (c.toNat + 32) else c

/-- ASCII lower-casing of a string, applied before keyword lookup. -/
def lowerStr (v : String) : String := String.mk (v.toList.map lowerChar)

/-- Name of a single-character operator/delimiter (the `operators`
record), `none` for an unrecognized character. -/
def opName (c : Char) : Option String :=
  if c = '+' then some "PLUS"
  else if c = '-' then some "MINUS"
  else if c = '*' then some "MULTIPLY"
  else if c = '/' then some "DIVIDE"
  else if c = '=' then some "ASSIGN"
  else if c = '>' then some "GT"
  else if c = '<' then some "LT"
  else if c = '!' then some "NOT"
  else if c = '(' then some "LPAREN"
  else if c = ')' then some "RPAREN"
  else if c = '\x7b' then some "LBRACE"
  else if c = '\x7d' then some "RBRACE"
  else if c = ';' then some "SEMICOLON"
  else if c = ',' then some "COMMA"
  else none

/-- The source classifies a name as DELIMITER when it contains `PAREN` or
`BRACE` or equals `SEMICOLON`/`COMMA`; over the fixed table that is
exactly this finite test. -/
def isDelimName (n : String) : Bool :=
  n = "LPAREN" || n = "RPAREN" || n = "LBRACE" || n = "RBRACE"
    || n = "SEMICOLON" || n = "COMMA"

/-- `nextToken`: scan one token (or skip one unrecognized character,
yielding `none`), returning the rest of the input and position. -/
def nextToken : List Char → Pos → Option Token × List Char × Pos
  | [], p => (none, [], p)
  | c :: cs, p =>
    if c.isDigit then
      let (value, rest, p') := readNumber (c :: cs) p false ""
      (some { type := .NUMBER, value := value, line := p.line, column := p.column }, rest, p')
    else if c = '"' || c = '\'' then
      -- skip the opening quote, read the body, then skip the closing
      -- quote when present
      let (value, rest, p') := readStringBody c cs (advPos p c) ""
      match rest with
      | q :: rest' =>
        if q = c then
          (some { type := .STRING, value := value, line := p.line, column := p.column },
           rest', advPos p' q)
        else
          (some { type := .STRING, value := value, line := p.line, column := p.column },
           rest, p')
      | [] =>
        (some { type := .STRING, value := value, line := p.line, column := p.column }, [], p')
    else if c.isAlpha || c = '_' then
      let (value, rest, p') := readIdentChars (c :: cs) p ""
      match lookupA keywordMap (lowerStr value) with
      | some kw =>
        (some { type := .KEYWORD, value := kw, line := p.line, column := p.column }, rest, p')
      | none =>
        (some { type := .IDENTIFIER, value := value, line := p.line, column := p.column },
         rest, p')
    else if c = '=' && (match cs with | '=' :: _ => true | _ => false) then
      (some { type := .OPERATOR, value := "EQ", line := p.line, column := p.column },
       cs.drop 1, advPos (advPos p c) '=')
    else if c = '!' && (match cs with | '=' :: _ => true | _ => false) then
      (some { type := .OPERATOR, value := "NEQ", line := p.line, column := p.column },
       cs.drop 1, advPos (advPos p c) '=')
    else
      match opName c with
      | some n =>
        (some { type := if isDelimName n then .DELIMITER else .OPERATOR,
                value := n, line := p.line, column := p.column },
         cs, advPos p c)
      | none => (none, cs, advPos p c)  -- unknown character: skipped

/-- The `tokenize` main loop (fueled; each iteration consumes at least one
character, so fuel `length + 1` never runs out). -/
def tokenizeLoop : Nat → List Char → Pos → List Token × Pos
  | 0, _, p => ([], p)
  | fuel + 1, cs, p =>
    let (cs1, p1) := skipWs cs p
    match cs1 with
    | [] => ([], p1)
    | c :: rest =>
      if c = '#' && (match rest with | 'r' :: 'o' :: 't' :: _ => true | _ => false) then
        let (cs2, p2) := skipComment (c :: rest) p1
        tokenizeLoop fuel cs2 p2
      else
        let (tok, cs2, p2) := nextToken (c :: rest) p1
        let (ts, pEnd) := tokenizeLoop fuel cs2 p2
        (match tok with | some t => t :: ts | none => ts, pEnd)

/-- `BrainRotTokenizer.tokenize`: scan all tokens, then push the final
EOF token with empty text at the final line/column. -/
def tokenize (input : String) : List Token :=
  let cs := input.toList
  let (ts, p) := tokenizeLoop (cs.length + 1) cs { line := 1, column := 1 }
  ts ++ [{ type := .EOF, value := "", line := p.line, column := p.column }]

/-! ## AST and parser (`BrainRotParser`) -/

/-- Expression nodes.  `call` carries the callee name the source reads off
the callee node's `.name` field — `none` models the `undefined` that a
non-identifier callee produces. -/
inductive Expr where
  | lit (value : Value)
  | ident (name : String)
  | unary (operator : String) (operand : Expr)
  | binary (operator : String) (left : Expr) (right : Expr)
  | call (name : Option String) (args : List Expr)

/-- Statement nodes (`exprStmt` is a bare expression used as a statement). -/
inductive Stmt where
  | varDecl (name : String) (value : Expr)
  | printStmt (expression : Expr)
  | whileLoop (condition : Expr) (body : List Stmt)
  | ifStmt (condition : Expr) (thenBody : List Stmt) (elseBody : Option (List Stmt))
  | funcDecl (name : String) (parameters : List String) (body : List Stmt)
  | exprStmt (e : Expr)

/-- Errors of the fueled embedding: a modelled TS `throw` carrying its
message, or fuel exhaustion (a model artifact no real run exhibits). -/
inductive Err where
  | thrown (msg : String)
  | fuelOut
deriving DecidableEq

/-- Parser state: the token array and the cursor (`position`). -/
structure PState where
  tokens : List Token
  pos : Nat
deriving DecidableEq

/-- The default token `getD` returns past the end; unreachable because the
cursor never passes the final EOF token. -/
def eofTok : Token := { type := .EOF, value := "", line := 0, column := 0 }

/-- `peek()`. -/
def PState.peekTk (s : PState) : Token := s.tokens.getD s.pos eofTok

/-- `previous()`. -/
def PState.prevTk (s : PState) : Token := s.tokens.getD (s.pos - 1) eofTok

/-- `isAtEnd()`. -/
def PState.atEnd (s : PState) : Bool := s.peekTk.type == TType.EOF

/-- Parser actions: TS methods that mutate `position` and may throw.  The
state is returned even on error, as TS fields survive an unwinding
exception. -/
def PM (α : Type) : Type := PState → Except Err α × PState

instance : Monad PM where
  pure a := fun s => (Except.ok a, s)
  bind m f := fun s =>
    match m s with
    | (Except.ok a, s') => f a s'
    | (Except.error e, s') => (Except.error e, s')

/-- Throw a parse error (TS `throw new Error(...)`). -/
def throwP {α : Type} (msg : String) : PM α := fun s => (Except.error (Err.thrown msg), s)

/-- Fuel exhaustion inside the parser. -/
def fuelOutP {α : Type} : PM α := fun s => (Except.error Err.fuelOut, s)

/-- Read the parser state. -/
def getPS : PM PState := fun s => (Except.ok s, s)

/-- `advance()`: step unless at end, then return `previous()`. -/
def advanceTk : PM Token := fun s =>
  if s.atEnd then (Except.ok s.prevTk, s)
  else
    let s' : PState := { s with pos := s.pos + 1 }
    (Except.ok s'.prevTk, s')

/-- `check(type, value?)`. -/
def checkTk (ty : TType) (v : Option String) (s : PState) : Bool :=
  if s.atEnd then false
  else
    match v with
    | none => s.peekTk.type == ty
    | some x => s.peekTk.type == ty && s.peekTk.value == x

/-- `match(type, value)` for one type/value pair: advance on a hit. -/
def matchTk (ty : TType) (v : Option String) : PM Bool := do
  let s ← getPS
  if checkTk ty v s then
    let _ ← advanceTk
    pure true
  else
    pure false

/-- `consume(type, value, message)`: empty `value` checks the type only;
a miss throws with the peeked token's position in the message. -/
def consumeTk (ty : TType) (v : String) (msg : String) : PM Token := do
  let s ← getPS
  if v = "" then
    if s.peekTk.type == ty then advanceTk
    else throwP (msg ++ " at line " ++ toString s.peekTk.line
      ++ ", column " ++ toString s.peekTk.column)
  else
    if checkTk ty (some v) s then advanceTk
    else throwP (msg ++ " at line " ++ toString s.peekTk.line
      ++ ", column " ++ toString s.peekTk.column)

/-- `previous().value` (used to fetch the operator just matched). -/
def prevVal : PM String := fun s => (Except.ok s.prevTk.value, s)

/-- Callee name extraction in `finishCall`: the `.name` field of the
callee node, which is `undefined` unless the callee is an Identifier. -/
def calleeName : Expr → Option String
  | .ident n => some n
  | _ => none

/-- Parser jobs: one constructor per `BrainRotParser` method (and per
`while` loop inside a method).  The parser's recursion is tied through a
single fueled knot (`runP`) over these jobs so that kernel reduction
stays linear in the fuel. -/
inductive PJob where
  | stmtJ
  | varDeclJ
  | printJ
  | whileJ
  | ifJ
  | funcJ
  | paramsJ
  | blockJ
  | exprJ
  | lorJ
  | lorLoopJ (e : Expr)
  | landJ
  | landLoopJ (e : Expr)
  | eqJ
  | eqLoopJ (e : Expr)
  | cmpJ
  | cmpLoopJ (e : Expr)
  | termJ
  | termLoopJ (e : Expr)
  | factorJ
  | factorLoopJ (e : Expr)
  | unaryJ
  | callJ
  | callLoopJ (e : Expr)
  | finishJ (callee : Expr)
  | argsJ
  | primaryJ

/-- What a parser job yields.  Every job always produces one fixed
variant; the projections below map the impossible mismatch to the fuel
marker, which the entry point turns into `none`. -/
inductive PRes where
  | stmt (s : Stmt)
  | stmts (l : List Stmt)
  | names (l : List String)
  | expr (e : Expr)
  | exprs (l : List Expr)

/-- Project a statement result. -/
def asStmt : PRes → PM Stmt
  | .stmt s => pure s
  | _ => fuelOutP

/-- Project a statement-list result. -/
def asStmts : PRes → PM (List Stmt)
  | .stmts l => pure l
  | _ => fuelOutP

/-- Project a name-list result. -/
def asNames : PRes → PM (List String)
  | .names l => pure l
  | _ => fuelOutP

/-- Project an expression result. -/
def asExpr : PRes → PM Expr
  | .expr e => pure e
  | _ => fuelOutP

/-- Project an expression-list result. -/
def asExprs : PRes → PM (List Expr)
  | .exprs l => pure l
  | _ => fuelOutP

/-- One step of `BrainRotParser`: `recur` is the parser one fuel level
down.  Each arm is one source method, line for line. -/
def stepP (recur : PJob → PM PRes) : PJob → PM PRes
  -- `statement()`
  | .stmtJ => do
    let m ← matchTk .KEYWORD (some "MOLD")
    if m then recur .varDeclJ else do
    let m ← matchTk .KEYWORD (some "ROTT")
    if m then recur .printJ else do
    let m ← matchTk .KEYWORD (some "SPIN")
    if m then recur .whileJ else do
    let m ← matchTk .KEYWORD (some "IFROT")
    if m then recur .ifJ else do
    let m ← matchTk .KEYWORD (some "FNROT")
    if m then recur .funcJ else do
    let e ← recur .exprJ >>= asExpr
    let _ ← consumeTk .DELIMITER "SEMICOLON" "Expected ; after expression"
    pure (PRes.stmt (Stmt.exprStmt e))
  -- `variableDeclaration()`
  | .varDeclJ => do
    let name ← consumeTk .IDENTIFIER "" "Expected variable name"
    let _ ← consumeTk .OPERATOR "ASSIGN" "Expected = after variable name"
    let value ← recur .exprJ >>= asExpr
    let _ ← consumeTk .DELIMITER "SEMICOLON" "Expected ; after variable declaration"
    pure (PRes.stmt (Stmt.varDecl name.value value))
  -- `printStatement()`
  | .printJ => do
    let e ← recur .exprJ >>= asExpr
    let _ ← consumeTk .DELIMITER "SEMICOLON" "Expected ; after print statement"
    pure (PRes.stmt (Stmt.printStmt e))
  -- `whileLoop()`
  | .whileJ => do
    let condition ← recur .exprJ >>= asExpr
    let _ ← consumeTk .DELIMITER "LBRACE" "Expected \x7b after while condition"
    let body ← recur .blockJ >>= asStmts
    let _ ← consumeTk .DELIMITER "RBRACE" "Expected \x7d after while body"
    pure (PRes.stmt (Stmt.whileLoop condition body))
  -- `ifStatement()`
  | .ifJ => do
    let condition ← recur .exprJ >>= asExpr
    let _ ← consumeTk .DELIMITER "LBRACE" "Expected \x7b after if condition"
    let thenBody ← recur .blockJ >>= asStmts
    let _ ← consumeTk .DELIMITER "RBRACE" "Expected \x7d after if body"
    let m ← matchTk .KEYWORD (some "ELSED")
    if m then do
      let _ ← consumeTk .DELIMITER "LBRACE" "Expected \x7b after else"
      let elseBody ← recur .blockJ >>= asStmts
      let _ ← consumeTk .DELIMITER "RBRACE" "Expected \x7d after else body"
      pure (PRes.stmt (Stmt.ifStmt condition thenBody (some elseBody)))
    else
      pure (PRes.stmt (Stmt.ifStmt condition thenBody none))
  -- `functionDeclaration()`
  | .funcJ => do
    let name ← consumeTk .IDENTIFIER "" "Expected function name"
    let _ ← consumeTk .DELIMITER "LPAREN" "Expected ( after function name"
    let s ← getPS
    let parameters ←
      if checkTk .DELIMITER (some "RPAREN") s then pure ([] : List String)
      else recur .paramsJ >>= asNames
    let _ ← consumeTk .DELIMITER "RPAREN" "Expected ) after parameters"
    let _ ← consumeTk .DELIMITER "LBRACE" "Expected \x7b before function body"
    let body ← recur .blockJ >>= asStmts
    let _ ← consumeTk .DELIMITER "RBRACE" "Expected \x7d after function body"
    pure (PRes.stmt (Stmt.funcDecl name.value parameters body))
  -- the do/while over parameter names in `functionDeclaration()`
  | .paramsJ => do
    let param ← consumeTk .IDENTIFIER "" "Expected parameter name"
    let m ← matchTk .DELIMITER (some "COMMA")
    if m then do
      let rest ← recur .paramsJ >>= asNames
      pure (PRes.names (param.value :: rest))
    else
      pure (PRes.names [param.value])
  -- the `while (!check(RBRACE) && !isAtEnd())` statement loops of
  -- while/if/function bodies
  | .blockJ => do
    let s ← getPS
    if !(checkTk .DELIMITER (some "RBRACE") s) && !s.atEnd then do
      let st ← recur .stmtJ >>= asStmt
      let rest ← recur .blockJ >>= asStmts
      pure (PRes.stmts (st :: rest))
    else
      pure (PRes.stmts [])
  -- `expression()`
  | .exprJ => recur .lorJ
  -- `logicalOr()`
  | .lorJ => do
    let e ← recur .landJ >>= asExpr
    recur (.lorLoopJ e)
  | .lorLoopJ e => do
    let m ← matchTk .KEYWORD (some "ORROT")
    if m then do
      let operator ← prevVal
      let right ← recur .landJ >>= asExpr
      recur (.lorLoopJ (Expr.binary operator e right))
    else
      pure (PRes.expr e)
  -- `logicalAnd()`
  | .landJ => do
    let e ← recur .eqJ >>= asExpr
    recur (.landLoopJ e)
  | .landLoopJ e => do
    let m ← matchTk .KEYWORD (some "ANDROT")
    if m then do
      let operator ← prevVal
      let right ← recur .eqJ >>= asExpr
      recur (.landLoopJ (Expr.binary operator e right))
    else
      pure (PRes.expr e)
  -- `equality()`
  | .eqJ => do
    let e ← recur .cmpJ >>= asExpr
    recur (.eqLoopJ e)
  | .eqLoopJ e => do
    let m1 ← matchTk .OPERATOR (some "EQ")
    let m ← if m1 then pure true else matchTk .OPERATOR (some "NEQ")
    if m then do
      let operator ← prevVal
      let right ← recur .cmpJ >>= asExpr
      recur (.eqLoopJ (Expr.binary operator e right))
    else
      pure (PRes.expr e)
  -- `comparison()`
  | .cmpJ => do
    let e ← recur .termJ >>= asExpr
    recur (.cmpLoopJ e)
  | .cmpLoopJ e => do
    let m1 ← matchTk .OPERATOR (some "GT")
    let m ← if m1 then pure true else matchTk .OPERATOR (some "LT")
    if m then do
      let operator ← prevVal
      let right ← recur .termJ >>= asExpr
      recur (.cmpLoopJ (Expr.binary operator e right))
    else
      pure (PRes.expr e)
  -- `term()`
  | .termJ => do
    let e ← recur .factorJ >>= asExpr
    recur (.termLoopJ e)
  | .termLoopJ e => do
    let m1 ← matchTk .OPERATOR (some "PLUS")
    let m ← if m1 then pure true else matchTk .OPERATOR (some "MINUS")
    if m then do
      let operator ← prevVal
      let right ← recur .factorJ >>= asExpr
      recur (.termLoopJ (Expr.binary operator e right))
    else
      pure (PRes.expr e)
  -- `factor()`
  | .factorJ => do
    let e ← recur .unaryJ >>= asExpr
    recur (.factorLoopJ e)
  | .factorLoopJ e => do
    let m1 ← matchTk .OPERATOR (some "MULTIPLY")
    let m ← if m1 then pure true else matchTk .OPERATOR (some "DIVIDE")
    if m then do
      let operator ← prevVal
      let right ← recur .unaryJ >>= asExpr
      recur (.factorLoopJ (Expr.binary operator e right))
    else
      pure (PRes.expr e)
  -- `unary()`: `!`, `notrot` or unary `-`, else fall through to `call()`
  | .unaryJ => do
    let m1 ← matchTk .OPERATOR (some "NOT")
    let m2 ← if m1 then pure true else matchTk .KEYWORD (some "NOTROT")
    let m ← if m2 then pure true else matchTk .OPERATOR (some "MINUS")
    if m then do
      let operator ← prevVal
      let right ← recur .unaryJ >>= asExpr
      pure (PRes.expr (Expr.unary operator right))
    else
      recur .callJ
  -- `call()`: a primary followed by zero or more `(...)` suffixes
  | .callJ => do
    let e ← recur .primaryJ >>= asExpr
    recur (.callLoopJ e)
  | .callLoopJ e => do
    let m ← matchTk .DELIMITER (some "LPAREN")
    if m then do
      let c ← recur (.finishJ e) >>= asExpr
      recur (.callLoopJ c)
    else
      pure (PRes.expr e)
  -- `finishCall()`
  | .finishJ callee => do
    let s ← getPS
    let args ←
      if checkTk .DELIMITER (some "RPAREN") s then pure ([] : List Expr)
      else recur .argsJ >>= asExprs
    let _ ← consumeTk .DELIMITER "RPAREN" "Expected ) after arguments"
    pure (PRes.expr (Expr.call (calleeName callee) args))
  -- the do/while over call arguments in `finishCall()`
  | .argsJ => do
    let e ← recur .exprJ >>= asExpr
    let m ← matchTk .DELIMITER (some "COMMA")
    if m then do
      let rest ← recur .argsJ >>= asExprs
      pure (PRes.exprs (e :: rest))
    else
      pure (PRes.exprs [e])
  -- `primary()`: literals, identifiers, parenthesized expressions;
  -- anything else throws.  A number literal goes through `parseFloat`
  -- when its text contains a dot, else `parseInt` — both exact here
  -- because the token text is a plain decimal numeral.
  | .primaryJ => do
    let m ← matchTk .NUMBER none
    if m then do
      let value ← prevVal
      pure (PRes.expr (Expr.lit (Value.num (JSNum.fin (decimalValue value.toList)))))
    else do
    let m ← matchTk .STRING none
    if m then do
      let value ← prevVal
      pure (PRes.expr (Expr.lit (Value.str value)))
    else do
    let m ← matchTk .IDENTIFIER none
    if m then do
      let name ← prevVal
      pure (PRes.expr (Expr.ident name))
    else do
    let m ← matchTk .DELIMITER (some "LPAREN")
    if m then do
      let e ← recur .exprJ >>= asExpr
      let _ ← consumeTk .DELIMITER "RPAREN" "Expected ) after expression"
      pure (PRes.expr e)
    else do
      let s ← getPS
      throwP ("Unexpected token: " ++ s.peekTk.value)

/-- The fueled parser knot. -/
def runP : Nat → PJob → PM PRes
  | 0, _ => fuelOutP
  | fuel + 1, job => stepP (runP fuel) job

/-- `synchronize()`'s scan loop: stop after a consumed `;`, before a
statement keyword, or at the end.  Fueled by the token count, which the
cursor can never exceed. -/
def syncGo : Nat → PState → PState
  | 0, s => s
  | fuel + 1, s =>
    if s.atEnd then s
    else if s.prevTk.value == "SEMICOLON" then s
    else if s.peekTk.value == "MOLD" || s.peekTk.value == "ROTT"
         || s.peekTk.value == "SPIN" || s.peekTk.value == "IFROT"
         || s.peekTk.value == "FNROT" then s
    else syncGo fuel (if s.atEnd then s else { s with pos := s.pos + 1 })

/-- `synchronize()`: advance once unconditionally, then scan forward. -/
def synchronize (s : PState) : PState :=
  let s1 : PState := if s.atEnd then s else { s with pos := s.pos + 1 }
  syncGo (s1.tokens.length + 1) s1

/-- The `parse()` loop: build a statement, or on a parse error discard it
and resynchronize.  `none` only on fuel exhaustion. -/
def parseGo : Nat → PState → List Stmt → Option (List Stmt)
  | 0, _, _ => none
  | fuel + 1, s, acc =>
    if s.atEnd then some acc
    else
      match runP fuel .stmtJ s with
      | (Except.ok (PRes.stmt st), s') => parseGo fuel s' (acc ++ [st])
      | (Except.ok _, _) => none
      | (Except.error (Err.thrown _), s') => parseGo fuel (synchronize s') acc
      | (Except.error Err.fuelOut, _) => none

/-- `BrainRotParser.parse`. -/
def parse (fuel : Nat) (tokens : List Token) : Option (List Stmt) :=
  parseGo fuel { tokens := tokens, pos := 0 } []

/-! ## Evaluator (`BrainRotInterpreter`) -/

/-- A registered function: the parameters and body of its
FunctionDeclaration node. -/
structure FuncDef where
  parameters : List String
  body : List Stmt

/-- Interpreter state: the variable environment, the function table and
the output lines, in insertion order. -/
structure IState where
  vars : List (String × Value)
  functions : List (String × FuncDef)
  output : List String

/-- Result of one evaluator step: a value or a modelled thrown error,
plus the state at that moment (mutations before a throw persist). -/
abbrev IRes (α : Type) := Except Err α × IState

/-- Error taxonomy of the entry point (`BrainRotError.type`). -/
inductive EType where
  | SYNTAX
  | RUNTIME
  | TYPE
deriving DecidableEq

/-- The structured error descriptor returned to the caller. -/
structure BrainRotError where
  message : String
  line : Nat
  column : Nat
  type : EType
deriving DecidableEq

/-- What `interpret`/`executeBrainRot` return: the output lines and at
most one error. -/
structure RunResult where
  output : List String
  error : Option BrainRotError
deriving DecidableEq

/-- The operator switch of the BinaryExpression case (applied after both
operands have been evaluated). -/
def applyBinary (op : String) (left right : Value) : Except Err Value :=
  match op with
  | "PLUS" => Except.ok (jsAdd left right)
  | "MINUS" => Except.ok (jsSub left right)
  | "MULTIPLY" => Except.ok (jsMul left right)
  | "DIVIDE" => Except.ok (jsDiv left right)
  | "GT" => Except.ok (jsGt left right)
  | "LT" => Except.ok (jsLt left right)
  | "EQ" => Except.ok (Value.bool (jsStrictEq left right))
  | "NEQ" => Except.ok (Value.bool (!jsStrictEq left right))
  | "ANDROT" => Except.ok (Value.bool (isTruthy left && isTruthy right))
  | "ORROT" => Except.ok (Value.bool (isTruthy left || isTruthy right))
  | _ => Except.error (Err.thrown ("Unknown operator: " ++ op))

/-- Evaluator jobs: one constructor per `BrainRotInterpreter` method (or
internal loop).  As with the parser, the recursion is tied through one
fueled knot (`runI`) so kernel reduction stays linear in the fuel. -/
inductive IJob where
  | exec (node : Stmt)
  | execL (l : List Stmt)
  | execB (l : List Stmt) (res : Value)
  | bindP (ps : List String) (args : List Expr)
  | whileJ (condition : Expr) (body : List Stmt)
  | eval (e : Expr)

/-- One step of `BrainRotInterpreter`: `recur` is the evaluator one fuel
level down.
* `exec` is `execute`, case for case: a variable declaration *returns
  the bound value*; while/if/function declarations return `null`; the
  default case evaluates the node as an expression.  (The `execL`
  statement loops discard these results, so they only surface as a call
  expression's result via `execB`.)
* `eval` is `evaluate`, case for case.  There is *no* UnaryExpression
  case in the source switch: a unary node falls into the default branch
  and throws `Unknown expression type: UnaryExpression`.  The
  CallExpression case snapshots the variable environment (`prevVars`),
  binds parameters, runs the body against the live environment, then
  restores the snapshot wholesale — the function table and the output
  are not restored.
* `execB` is the call-body loop `let result; for (stmt of body)
  result = execute(stmt)`: `res` is the last statement's value so far,
  starting at `undefined` for an empty body.
* `bindP` is the parameter-binding loop: each declared parameter in
  order is bound to the matching argument's value, or to `undefined`
  past the end of the argument list.
* `whileJ` is the while-loop driver: re-evaluate the condition before
  every iteration, run the body while it is truthy, return `null`. -/
def stepI (recur : IJob → IState → Except Err Value × IState) :
    IJob → IState → Except Err Value × IState
  | .exec node, s =>
    match node with
    | .varDecl name value =>
      match recur (.eval value) s with
      | (Except.ok v, s1) =>
          (Except.ok v, { s1 with vars := setA s1.vars name v })
      | (Except.error e, s1) => (Except.error e, s1)
    | .printStmt expression =>
      match recur (.eval expression) s with
      | (Except.ok result, s1) =>
          (Except.ok result, { s1 with output := s1.output ++ [jsToString result] })
      | (Except.error e, s1) => (Except.error e, s1)
    | .whileLoop condition body => recur (.whileJ condition body) s
    | .ifStmt condition thenBody elseBody =>
      match recur (.eval condition) s with
      | (Except.ok cv, s1) =>
        if isTruthy cv then
          match recur (.execL thenBody) s1 with
          | (Except.ok _, s2) => (Except.ok Value.null, s2)
          | (Except.error e, s2) => (Except.error e, s2)
        else
          match elseBody with
          | some el =>
            match recur (.execL el) s1 with
            | (Except.ok _, s2) => (Except.ok Value.null, s2)
            | (Except.error e, s2) => (Except.error e, s2)
          | none => (Except.ok Value.null, s1)
      | (Except.error e, s1) => (Except.error e, s1)
    | .funcDecl name parameters body =>
      (Except.ok Value.null,
       { s with functions := setA s.functions name ⟨parameters, body⟩ })
    | .exprStmt e => recur (.eval e) s
  | .execL l, s =>
    match l with
    | [] => (Except.ok Value.undef, s)
    | st :: rest =>
      match recur (.exec st) s with
      | (Except.ok _, s1) => recur (.execL rest) s1
      | (Except.error e, s1) => (Except.error e, s1)
  | .execB l res, s =>
    match l with
    | [] => (Except.ok res, s)
    | st :: rest =>
      match recur (.exec st) s with
      | (Except.ok r, s1) => recur (.execB rest r) s1
      | (Except.error e, s1) => (Except.error e, s1)
  | .bindP ps args, s =>
    match ps with
    | [] => (Except.ok Value.undef, s)
    | param :: ps' =>
      match args with
      | a :: args' =>
        match recur (.eval a) s with
        | (Except.ok v, s1) =>
            recur (.bindP ps' args') { s1 with vars := setA s1.vars param v }
        | (Except.error e, s1) => (Except.error e, s1)
      | [] =>
        recur (.bindP ps' []) { s with vars := setA s.vars param Value.undef }
  | .whileJ condition body, s =>
    match recur (.eval condition) s with
    | (Except.ok cv, s1) =>
      if isTruthy cv then
        match recur (.execL body) s1 with
        | (Except.ok _, s2) => recur (.whileJ condition body) s2
        | (Except.error e, s2) => (Except.error e, s2)
      else (Except.ok Value.null, s1)
    | (Except.error e, s1) => (Except.error e, s1)
  | .eval e, s =>
    match e with
    | .lit value => (Except.ok value, s)
    | .ident name =>
      match lookupA s.vars name with
      | some v => (Except.ok v, s)
      | none => (Except.error (Err.thrown ("Undefined variable: " ++ name)), s)
    | .binary op l r =>
      match recur (.eval l) s with
      | (Except.ok left, s1) =>
        match recur (.eval r) s1 with
        | (Except.ok right, s2) => (applyBinary op left right, s2)
        | (Except.error e2, s2) => (Except.error e2, s2)
      | (Except.error e1, s1) => (Except.error e1, s1)
    | .unary _ _ =>
      (Except.error (Err.thrown "Unknown expression type: UnaryExpression"), s)
    | .call nameO args =>
      match nameO with
      | none => (Except.error (Err.thrown "Undefined function: undefined"), s)
      | some nm =>
        match lookupA s.functions nm with
        | none => (Except.error (Err.thrown ("Undefined function: " ++ nm)), s)
        | some func =>
          let prevVars := s.vars
          match recur (.bindP func.parameters args) s with
          | (Except.ok _, s1) =>
            match recur (.execB func.body Value.undef) s1 with
            | (Except.ok result, s2) =>
                (Except.ok result, { s2 with vars := prevVars })
            | (Except.error e2, s2) => (Except.error e2, s2)
          | (Except.error e1, s1) => (Except.error e1, s1)

/-- The fueled evaluator knot. -/
def runI : Nat → IJob → IState → Except Err Value × IState
  | 0, _, s => (Except.error Err.fuelOut, s)
  | fuel + 1, job, s => stepI (runI fuel) job s

/-- `BrainRotInterpreter.evaluate` (via the knot). -/
def evaluate (fuel : Nat) (e : Expr) (s : IState) : IRes Value :=
  runI fuel (.eval e) s

/-- `BrainRotInterpreter.execute` (via the knot). -/
def execute (fuel : Nat) (node : Stmt) (s : IState) : IRes Value :=
  runI fuel (.exec node) s

/-- The top-level `for (node of ast) this.execute(node)` loop. -/
def execList (fuel : Nat) (l : List Stmt) (s : IState) : IRes Value :=
  runI fuel (.execL l) s

/-- `BrainRotInterpreter.interpret`: run the statements from a fresh
state; any modelled thrown error is wrapped as a RUNTIME error with
line 0 and column 0 and the output produced so far is kept.  Fuel
exhaustion (a model artifact) yields `none`. -/
def interpret (fuel : Nat) (ast : List Stmt) : Option RunResult :=
  match execList fuel ast { vars := [], functions := [], output := [] } with
  | (Except.ok _, s) => some { output := s.output, error := none }
  | (Except.error (Err.thrown m), s) =>
      some { output := s.output,
             error := some { message := "Brain rot detected: " ++ m,
                             line := 0, column := 0, type := EType.RUNTIME } }
  | (Except.error Err.fuelOut, _) => none

/-- `executeBrainRot`: tokenize, parse, interpret.  The source wraps this
in a catch producing a SYNTAX error at line 0, column 0, but `tokenize`
never throws and `parse` catches every statement failure internally, so
that handler is unreachable and the model needs no branch for it. -/
def executeBrainRot (fuel : Nat) (code : String) : Option RunResult :=
  match parse fuel (tokenize code) with
  | none => none
  | some ast => interpret fuel ast

/-! ## Programs under test

Braces in BrainRot source text are written with the `\x7b`/`\x7d`
escapes; they denote the ordinary `{`/`}` characters. -/

/-- The spec's function-scope-rollback program:
`mold a = 1; fnrot f() { mold a = 99; } f(); rott a;`. -/
def scopeRollbackProgram : String :=
  "mold a = 1; fnrot f() \x7b mold a = 99; \x7d f(); rott a;"

/-- The spec's truthiness test `ifrot notrot 0 { rott "yes"; }`. -/
def notrotProgram : String := "ifrot notrot 0 \x7b rott \"yes\"; \x7d"

/-- A unary-minus print: `rott -5;`. -/
def unaryMinusProgram : String := "rott -5;"

/-- `EXAMPLE_PROGRAMS.logic` from the IDE component, verbatim. -/
def logicExample : String :=
  "#rot Logic rotting\nmold a = 5;\nmold b = 10;\n\nifrot a > b orrot b == 10 \x7b\n  rott \"Brain rot detected!\";\n\x7d\n\nifrot a < b androt b > 8 \x7b\n  rott \"Double brain rot!\";\n\x7d\n\nifrot notrot a == b \x7b\n  rott \"Not equal rot!\";\n\x7d"

/-- `EXAMPLE_PROGRAMS.fibonacci` from the IDE component, verbatim. -/
def fibonacciExample : String :=
  "#rot Fibonacci madness\nfnrot fib(n) \x7b\n  ifrot n < 2 \x7b\n    rott n;\n  \x7d\n  elsed \x7b\n    rott fib(n - 1) + fib(n - 2);\n  \x7d\n\x7d\n\nmold i = 0;\nspin i < 8 \x7b\n  fib(i);\n  mold i = i + 1;\n\x7d"

/-- What one evaluation of `fib(n)` actually prints: for `n < 2` the
value of `n`; otherwise whatever `fib(n-1)` then `fib(n-2)` print,
followed by `"0"` — because each call returns the IfStatement's `null`,
and `null + null` is `0`. -/
def fibPrints : Nat → List String
  | 0 => ["0"]
  | 1 => ["1"]
  | n + 2 => fibPrints (n + 1) ++ fibPrints n ++ ["0"]

/-- The 100 lines the fibonacci example actually emits (`fib(i)` for
`i = 0..7`). -/
def fibActualOutput : List String := (List.range 8).flatMap fibPrints

/-- A call whose body ends in a variable declaration:
`fnrot f() { mold x = 42; } rott f();`. -/
def declResultProgram : String := "fnrot f() \x7b mold x = 42; \x7d rott f();"

/-- A call whose non-empty body's last statement reads a parameter that
was bound to no argument: `fnrot f(a) { a; } rott f();`. -/
def paramUndefProgram : String := "fnrot f(a) \x7b a; \x7d rott f();"

/-- The spec's recovery example: a variable declaration missing its
terminating semicolon, then a valid print. -/
def missingSemiProgram : String := "mold x = 5 rott \"ok\";"

/-- A malformed declaration whose failure point is the semicolon itself,
then a valid print. -/
def badExprProgram : String := "mold x = ; rott \"ok\";"

/-- A nested-call probe: `g` mutates `a` inside `f`'s body, then `f`
prints `a` after `g` returned. -/
def nestedCallProgram : String :=
  "mold a = 1; fnrot g() \x7b mold a = 99; \x7d fnrot f() \x7b g(); rott a; \x7d f();"

/-- An undefined-variable error probe: `rott y;`. -/
def undefinedVarProgram : String := "rott y;"

/-- A function declared inside a called function's body, then called by
the caller after the call returned. -/
def innerDeclProgram : String :=
  "fnrot f() \x7b fnrot g() \x7b rott \"made\"; \x7d \x7d f(); g();"

/-! ## States and records used by the witnesses -/

/-- A state with one variable `a = 1` and one registered function
`f() { mold a = 99; }`, used to witness the C1 frame property. -/
def c1WitState : IState :=
  { vars := [("a", Value.num (JSNum.fin (Frac.ofInt 1)))],
    functions := [("f", { parameters := [],
                          body := [Stmt.varDecl "a" (Expr.lit (Value.num (JSNum.fin (Frac.ofInt 99))))] })],
    output := [] }

/-- A state with one registered function `f() { mold x = 42; }`. -/
def c4WitState : IState :=
  { vars := [],
    functions := [("f", { parameters := [],
                          body := [Stmt.varDecl "x" (Expr.lit (Value.num (JSNum.fin (Frac.ofInt 42))))] })],
    output := [] }

/-- A state as seen mid-way through an outer call: `a = 1` and a
registered function `g() { mold a = 99; }`. -/
def c6WitState : IState :=
  { vars := [("a", Value.num (JSNum.fin (Frac.ofInt 1)))],
    functions := [("g", { parameters := [],
                          body := [Stmt.varDecl "a" (Expr.lit (Value.num (JSNum.fin (Frac.ofInt 99))))] })],
    output := [] }

/-- The empty interpreter state. -/
def emptyIState : IState := { vars := [], functions := [], output := [] }

/-- The error descriptor `rott y;` produces. -/
def c8Err : BrainRotError :=
  { message := "Brain rot detected: Undefined variable: y", line := 0, column := 0,
    type := EType.RUNTIME }

/-- A state with one registered function
`f() { fnrot g() { rott "made"; } }`. -/
def c10WitState : IState :=
  { vars := [],
    functions := [("f", { parameters := [],
                          body := [Stmt.funcDecl "g" []
                                    [Stmt.printStmt (Expr.lit (Value.str "made"))]] })],
    output := [] }

/-! ## Helper lemmas -/

/-- A call expression that completes leaves the variable environment
exactly as it was when the call began: the CallExpression case takes the
`prevVars` snapshot before binding parameters and installs it wholesale
on success, regardless of what the body did. -/
theorem evaluate_call_vars (fuel : Nat) (nameO : Option String) (args : List Expr)
    (s : IState) (v : Value) (s' : IState)
    (h : evaluate fuel (Expr.call nameO args) s = (Except.ok v, s')) :
    s'.vars = s.vars := by
  cases fuel with
  | zero => simp [evaluate, runI] at h
  | succ n =>
    cases nameO with
    | none => simp [evaluate, runI, stepI] at h
    | some nm =>
      simp only [evaluate, runI, stepI] at h
      split at h
      · simp at h
      · split at h
        · split at h
          · rw [Prod.mk.injEq] at h
            rw [← h.2]
          · simp at h
        · simp at h

/-- Overwriting a key makes it the first match. -/
theorem lookupA_setA_self {α : Type} (l : List (String × α)) (k : String) (v : α) :
    lookupA (setA l k v) k = some v := by
  induction l with
  | nil => simp [setA, lookupA]
  | cons kv rest ih =>
    by_cases hk : kv.1 = k
    · simp [setA, hk, lookupA]
    · simp [setA, hk, lookupA, ih]

/-- The call-body loop over `front ++ [last]`: when it completes, its
result value and final state are exactly those produced by executing the
last statement (from the state the earlier statements left behind).
This is the "the call's result is whatever the body's last executed
statement evaluated to" mechanism, isolated. -/
theorem execB_last (front : List Stmt) :
    ∀ (fuel : Nat) (last : Stmt) (res : Value) (s : IState) (v : Value) (s2 : IState),
      runI fuel (IJob.execB (front ++ [last]) res) s = (Except.ok v, s2) →
      ∃ k s1, runI k (IJob.exec last) s1 = (Except.ok v, s2) := by
  induction front with
  | nil =>
    intro fuel last res s v s2 h
    cases fuel with
    | zero => simp [runI] at h
    | succ m =>
      simp only [runI, stepI, List.nil_append] at h
      split at h
      · next r s3 heq =>
        cases m with
        | zero => simp [runI] at h
        | succ m' =>
          simp only [runI, stepI] at h
          rw [Prod.mk.injEq] at h
          exact ⟨m' + 1, s, by rw [heq, h.1, h.2]⟩
      · simp at h
  | cons st rest ih =>
    intro fuel last res s v s2 h
    cases fuel with
    | zero => simp [runI] at h
    | succ m =>
      simp only [runI, stepI, List.cons_append] at h
      split at h
      · exact ih m last _ _ v s2 h
      · simp at h

/-- Unfolding of one BinaryExpression evaluation step: both operands are
evaluated, left then right, before the operator is applied. -/
theorem evaluate_binary_eq (fuel : Nat) (op : String) (l r : Expr) (s : IState) :
    evaluate (fuel + 1) (Expr.binary op l r) s
      = match evaluate fuel l s with
        | (Except.ok left, s1) =>
          match evaluate fuel r s1 with
          | (Except.ok right, s2) => (applyBinary op left right, s2)
          | (Except.error e2, s2) => (Except.error e2, s2)
        | (Except.error e1, s1) => (Except.error e1, s1) := rfl

/-- No token emitted by `nextToken` is an EOF token. -/
theorem nextToken_not_eof (cs : List Char) (p : Pos) (t : Token) (cs' : List Char) (p' : Pos)
    (h : nextToken cs p = (some t, cs', p')) : t.type ≠ TType.EOF := by
  match cs with
  | [] => simp [nextToken] at h
  | c :: rest =>
    rcases hn : readNumber (c :: rest) p false "" with ⟨v1, r1, q1⟩
    rcases hs : readStringBody c rest (advPos p c) "" with ⟨v2, r2, q2⟩
    rcases hi : readIdentChars (c :: rest) p "" with ⟨v3, r3, q3⟩
    simp only [nextToken, hn, hs, hi] at h
    repeat' split at h
    all_goals
      first
      | (rcases h with ⟨h1, h2, h3⟩; simp)
      | simp_all

/-- The tokenizer's scan loop never emits an EOF token; the single EOF
token is appended afterwards by `tokenize`. -/
theorem tokenizeLoop_not_eof (fuel : Nat) (cs : List Char) (p : Pos) :
    ∀ t ∈ (tokenizeLoop fuel cs p).1, t.type ≠ TType.EOF := by
  induction fuel generalizing cs p with
  | zero => simp [tokenizeLoop]
  | succ n ih =>
    intro t ht
    rcases hw : skipWs cs p with ⟨cs1, p1⟩
    simp only [tokenizeLoop, hw] at ht
    split at ht
    · simp at ht
    · next c rest =>
      split at ht
      · rcases hc : skipComment (c :: rest) p1 with ⟨cs2, p2⟩
        rw [hc] at ht
        exact ih cs2 p2 t ht
      · rcases hx : nextToken (c :: rest) p1 with ⟨tok, cs2, p2⟩
        rw [hx] at ht
        rcases hl : tokenizeLoop n cs2 p2 with ⟨ts, pe⟩
        rw [hl] at ht
        cases tok with
        | some tk =>
          simp at ht
          rcases ht with ht | ht
          · rw [ht]; exact nextToken_not_eof (c :: rest) p1 tk cs2 p2 hx
          · exact ih cs2 p2 t (by rw [hl]; exact ht)
        | none =>
          simp at ht
          exact ih cs2 p2 t (by rw [hl]; exact ht)

/-! ## The claims -/

/-- C1: every function call expression that completes without a runtime
error restores the caller-visible variable environment to exactly what it
was just before the call began — no variable created or mutated during
the call survives; and the program
`mold a = 1; fnrot f() { mold a = 99; } f(); rott a;` outputs exactly
`["1"]`. -/
theorem call_frame_restored :
    (∀ fuel nameO args s v s',
        evaluate fuel (Expr.call nameO args) s = (Except.ok v, s') → s'.vars = s.vars)
      ∧ executeBrainRot 100 scopeRollbackProgram = some { output := ["1"], error := none } :=
  ⟨fun fuel nameO args s v s' h => evaluate_call_vars fuel nameO args s v s' h, by decide!⟩

/-- Witness for C1: the frame property evaluated at a concrete call
(`f()` in `c1WitState`, whose body mutates `a`). -/
theorem call_frame_restored_witness :
    ((evaluate 10 (Expr.call (some "f") []) c1WitState).snd).vars = c1WitState.vars :=
  call_frame_restored.1 10 (some "f") [] c1WitState
    (Value.num (JSNum.fin (Frac.ofInt 99)))
    ((evaluate 10 (Expr.call (some "f") []) c1WitState).snd) (by rfl)

/-- C2 (contra the claim, at the claim's own inputs): the evaluator's
switch has no UnaryExpression case, so `!`, `notrot` and unary `-` all
parse but throw `Unknown expression type: UnaryExpression` at run time.
`ifrot notrot 0 { rott "yes"; }` therefore prints nothing and reports a
RUNTIME error instead of printing `["yes"]`; `rott -5;` fails the same
way; and the repository's own `logic` example program dies on its third
`ifrot` after printing two lines. -/
theorem unary_throws_at_runtime :
    executeBrainRot 100 notrotProgram
        = some { output := [],
                 error := some { message := "Brain rot detected: Unknown expression type: UnaryExpression",
                                 line := 0, column := 0, type := EType.RUNTIME } }
      ∧ executeBrainRot 100 unaryMinusProgram
          = some { output := [],
                   error := some { message := "Brain rot detected: Unknown expression type: UnaryExpression",
                                   line := 0, column := 0, type := EType.RUNTIME } }
      ∧ executeBrainRot 200 logicExample
          = some { output := ["Brain rot detected!", "Double brain rot!"],
                   error := some { message := "Brain rot detected: Unknown expression type: UnaryExpression",
                                   line := 0, column := 0, type := EType.RUNTIME } } :=
  ⟨by decide!, by decide!, by decide!⟩

/-- C3 (contra the claim): the fibonacci example prints 100 lines, not
the eight Fibonacci values.  Each `fib` call returns the value of its
last executed statement; that statement is the IfStatement, which
`execute` always answers with `null`, so `fib(n-1) + fib(n-2)` is
`null + null = 0` and every composite level prints `"0"`.  The first
eight lines already differ from the claimed output at index 3. -/
theorem fibonacci_example_output :
    executeBrainRot 100 fibonacciExample = some { output := fibActualOutput, error := none }
      ∧ fibActualOutput ≠ ["0", "1", "1", "2", "3", "5", "8", "13"]
      ∧ fibActualOutput.take 8 = ["0", "1", "1", "0", "0", "1", "0", "0"] :=
  ⟨by decide!, by decide, by decide⟩

/-- C4 counterexample: a body ending in a variable declaration does not
yield an undefined result — `fnrot f() { mold x = 42; } rott f();`
prints `"42"`, not `"undefined"`, because `execute` returns the bound
value for a VariableDeclaration. -/
theorem decl_result_cex :
    executeBrainRot 100 declResultProgram = some { output := ["42"], error := none }
      ∧ (["42"] : List String) ≠ ["undefined"] :=
  ⟨by decide!, by decide⟩

/-- C4 amended: for every function call that completes, the call's
result value is whatever the body's last executed statement evaluated to
(first conjunct: the value and post-state of the whole call body are
those of executing its last statement), and a body with no statements
yields undefined (second conjunct).  But a variable declaration is
expression-producing — `execute` returns the bound value — so a body
ending in `mold x = <literal v>;` yields `v`, not an undefined result
(third conjunct); an undefined result can still arise from a non-empty
body whose last executed statement itself evaluates to undefined, as in
`fnrot f(a) { a; } rott f();`, which prints `"undefined"` (fourth
conjunct). -/
theorem call_result_last_statement :
    (∀ fuel f args s fd front last v s',
        lookupA s.functions f = some fd →
        fd.body = front ++ [last] →
        evaluate fuel (Expr.call (some f) args) s = (Except.ok v, s') →
        ∃ k s1 s2, execute k last s1 = (Except.ok v, s2))
      ∧ (∀ fuel f args s fd v s',
          lookupA s.functions f = some fd →
          fd.body = [] →
          evaluate fuel (Expr.call (some f) args) s = (Except.ok v, s') →
          v = Value.undef)
      ∧ (∀ fuel s f x v,
          lookupA s.functions f
              = some { parameters := [], body := [Stmt.varDecl x (Expr.lit v)] } →
          evaluate (fuel + 4) (Expr.call (some f) []) s = (Except.ok v, s))
      ∧ executeBrainRot 100 paramUndefProgram = some { output := ["undefined"], error := none } := by
  refine ⟨?_, ?_, ?_, by decide!⟩
  · intro fuel f args s fd front last v s' hf hb h
    cases fuel with
    | zero => simp [evaluate, runI] at h
    | succ n =>
      simp only [evaluate, runI, stepI, hf] at h
      rw [hb] at h
      split at h
      · split at h
        · next r s2 heq =>
          rw [Prod.mk.injEq] at h
          simp only [Except.ok.injEq] at h
          obtain ⟨k, s1, hk⟩ := execB_last front n last Value.undef _ r s2 heq
          rw [h.1] at hk
          exact ⟨k, s1, s2, hk⟩
        · simp at h
      · simp at h
  · intro fuel f args s fd v s' hf hb h
    cases fuel with
    | zero => simp [evaluate, runI] at h
    | succ n =>
      simp only [evaluate, runI, stepI, hf] at h
      rw [hb] at h
      split at h
      · split at h
        · next r s2 heq =>
          cases n with
          | zero => simp [runI] at heq
          | succ m =>
            simp only [runI, stepI] at heq
            rw [Prod.mk.injEq] at h heq
            simp only [Except.ok.injEq] at h heq
            rw [← h.1, ← heq.1]
        · simp at h
      · simp at h
  · intro fuel s f x v h
    simp only [evaluate, runI, stepI, h]

/-- Witness for the amended C4: the last-statement property discharged
at the concrete call `f()` with body `mold x = 42;` from `c4WitState`. -/
theorem call_result_last_statement_witness :
    ∃ k s1 s2,
      execute k (Stmt.varDecl "x" (Expr.lit (Value.num (JSNum.fin (Frac.ofInt 42))))) s1
        = (Except.ok (Value.num (JSNum.fin (Frac.ofInt 42))), s2) :=
  call_result_last_statement.1 10 "f" [] c4WitState
    { parameters := [], body := [Stmt.varDecl "x" (Expr.lit (Value.num (JSNum.fin (Frac.ofInt 42))))] }
    [] (Stmt.varDecl "x" (Expr.lit (Value.num (JSNum.fin (Frac.ofInt 42)))))
    (Value.num (JSNum.fin (Frac.ofInt 42))) c4WitState
    (by rfl) (by rfl) (by rfl)

/-- C5 counterexample: on the claim's own example — a variable
declaration missing its terminating semicolon followed by
`rott "ok";` — the recovery's unconditional first `advance()` consumes
the `ROTT` keyword, the whole valid statement is skipped, and the run
returns no output (and no error), not `["ok"]`. -/
theorem recovery_cex :
    executeBrainRot 100 missingSemiProgram = some { output := [], error := none }
      ∧ (([] : List String) ≠ ["ok"]) :=
  ⟨by decide!, by decide⟩

/-- C5 amended: recovery does run the following valid statement when the
parse failure leaves the parser short of that statement's leading
keyword — `mold x = ; rott "ok";` yields `["ok"]` with no error — but
when the failure happens exactly at the next statement's keyword (the
missing-semicolon case), that keyword is consumed by `synchronize` and
the statement is silently lost, yielding `[]` with no error. -/
theorem recovery_behavior :
    executeBrainRot 100 badExprProgram = some { output := ["ok"], error := none }
      ∧ executeBrainRot 100 missingSemiProgram = some { output := [], error := none } :=
  ⟨by decide!, by decide!⟩

/-- C6 counterexample: a mutation made during an inner call is *not*
visible to the enclosing call's body after the inner call returns.  In
`mold a = 1; fnrot g() { mold a = 99; } fnrot f() { g(); rott a; } f();`
the claim predicts `f` prints `"99"`; the run prints `"1"`, because `g`
restored its own pre-call snapshot when it returned. -/
theorem nested_call_cex :
    executeBrainRot 200 nestedCallProgram = some { output := ["1"], error := none }
      ∧ (["1"] : List String) ≠ ["99"] :=
  ⟨by decide!, by decide⟩

/-- C6 amended: every call, inner or outer alike, restores its own
pre-call snapshot when it returns — executing a call statement from any
state (including a state mid-way through an enclosing call's body)
leaves the variable environment unchanged on success. -/
theorem inner_call_restores_snapshot :
    ∀ fuel nameO args s v s',
      execute fuel (Stmt.exprStmt (Expr.call nameO args)) s = (Except.ok v, s') →
      s'.vars = s.vars := by
  intro fuel nameO args s v s' h
  cases fuel with
  | zero => simp [execute, runI] at h
  | succ n =>
    have h' : evaluate n (Expr.call nameO args) s = (Except.ok v, s') := h
    exact evaluate_call_vars n nameO args s v s' h'

/-- Witness for the amended C6: the inner call `g()` run from a state
representing the middle of `f`'s body leaves the variables unchanged. -/
theorem inner_call_restores_snapshot_witness :
    ((execute 10 (Stmt.exprStmt (Expr.call (some "g") [])) c6WitState).snd).vars
      = c6WitState.vars :=
  inner_call_restores_snapshot 10 (some "g") [] c6WitState
    (Value.num (JSNum.fin (Frac.ofInt 99)))
    ((execute 10 (Stmt.exprStmt (Expr.call (some "g") [])) c6WitState).snd) (by rfl)

/-- C7: `androt`/`orrot` evaluate both operands eagerly, left then
right; when both succeed the result is the AND/OR of the two operands'
truthiness, and an error thrown by the right operand surfaces even when
the left operand's truthiness already determines the logical result. -/
theorem androt_orrot_eager (fuel : Nat) (op : String) (l r : Expr) (s : IState)
    (vl : Value) (s1 : IState)
    (hop : op = "ANDROT" ∨ op = "ORROT")
    (hl : evaluate fuel l s = (Except.ok vl, s1)) :
    (∀ vr s2, evaluate fuel r s1 = (Except.ok vr, s2) →
        evaluate (fuel + 1) (Expr.binary op l r) s
          = (Except.ok (Value.bool (if op = "ANDROT" then isTruthy vl && isTruthy vr
                                    else isTruthy vl || isTruthy vr)), s2))
      ∧ (∀ msg s2, evaluate fuel r s1 = (Except.error (Err.thrown msg), s2) →
          evaluate (fuel + 1) (Expr.binary op l r) s
            = (Except.error (Err.thrown msg), s2)) := by
  constructor
  · intro vr s2 hr
    rcases hop with hop | hop <;> subst hop <;>
      simp [evaluate_binary_eq, hl, hr, applyBinary]
  · intro msg s2 hr
    rcases hop with hop | hop <;> subst hop <;>
      simp [evaluate_binary_eq, hl, hr]

/-- Witness for C7: `0 androt y` with `y` undefined — the left operand
is falsy, yet the right operand is still evaluated and its error
surfaces. -/
theorem androt_orrot_eager_witness :
    evaluate 2 (Expr.binary "ANDROT" (Expr.lit (Value.num (JSNum.fin (Frac.ofInt 0))))
        (Expr.ident "y")) emptyIState
      = (Except.error (Err.thrown "Undefined variable: y"), emptyIState) :=
  (androt_orrot_eager 1 "ANDROT" (Expr.lit (Value.num (JSNum.fin (Frac.ofInt 0))))
      (Expr.ident "y") emptyIState (Value.num (JSNum.fin (Frac.ofInt 0))) emptyIState
      (Or.inl rfl) (by rfl)).2 "Undefined variable: y" emptyIState (by rfl)

/-- C8: whenever `executeBrainRot` returns a result carrying an error
descriptor, that descriptor has line 0, column 0 and kind SYNTAX or
RUNTIME (in fact always RUNTIME: the tokenizer never throws and the
parser swallows every statement failure, so the SYNTAX wrapper is
unreachable, and TYPE is never produced). -/
theorem exec_error_shape :
    ∀ fuel src r e,
      executeBrainRot fuel src = some r →
      r.error = some e →
      e.line = 0 ∧ e.column = 0 ∧ (e.type = EType.SYNTAX ∨ e.type = EType.RUNTIME) := by
  intro fuel src r e h he
  cases hp : parse fuel (tokenize src) with
  | none => simp [executeBrainRot, hp] at h
  | some ast =>
    rcases hx : execList fuel ast { vars := [], functions := [], output := [] } with ⟨rx, sx⟩
    cases rx with
    | ok u =>
      simp [executeBrainRot, hp, interpret, hx] at h
      rw [← h] at he
      simp at he
    | error err =>
      cases err with
      | thrown m =>
        simp [executeBrainRot, hp, interpret, hx] at h
        rw [← h] at he
        simp at he
        rw [← he]
        exact ⟨rfl, rfl, Or.inr rfl⟩
      | fuelOut =>
        simp [executeBrainRot, hp, interpret, hx] at h

/-- Witness for C8: the error descriptor `rott y;` actually produces. -/
theorem exec_error_shape_witness :
    c8Err.line = 0 ∧ c8Err.column = 0 ∧ (c8Err.type = EType.SYNTAX ∨ c8Err.type = EType.RUNTIME) :=
  exec_error_shape 100 undefinedVarProgram { output := [], error := some c8Err } c8Err
    (by decide!) rfl

/-- C9: `tokenize` is total and, for every input string, returns a token
list whose EOF (END) tokens number exactly one, namely the last element,
which has empty text; an unrecognized character such as `@` is silently
skipped and produces no token. -/
theorem tokenize_end_token :
    (∀ s : String,
        ((tokenize s).filter (fun t => t.type == TType.EOF)).length = 1
          ∧ ∃ l c, (tokenize s).getLast?
              = some { type := TType.EOF, value := "", line := l, column := c })
      ∧ tokenize "@" = [{ type := TType.EOF, value := "", line := 1, column := 2 }] := by
  constructor
  · intro s
    rcases hl : tokenizeLoop (s.length + 1) s.data { line := 1, column := 1 } with ⟨ts, p⟩
    have hdef : tokenize s
        = ts ++ [{ type := TType.EOF, value := "", line := p.line, column := p.column }] := by
      simp [tokenize, hl]
    constructor
    · rw [hdef, List.filter_append]
      have hnil : ts.filter (fun t => t.type == TType.EOF) = [] := by
        rw [List.filter_eq_nil_iff]
        intro t ht
        have hne := tokenizeLoop_not_eof (s.length + 1) s.data { line := 1, column := 1 }
          t (by rw [hl]; exact ht)
        rcases t with ⟨ty, v, l, c⟩
        cases ty
        case EOF => exact absurd rfl hne
        all_goals exact fun hcon => nomatch hcon
      rw [hnil]
      rfl
    · exact ⟨p.line, p.column, by rw [hdef]; simp⟩
  · decide!

/-- C10: a function declaration executed inside a called function's body
is registered in the function table and survives the call's return: the
snapshot/restore touches only the variable environment, so after the
call the table maps the inner name to its declaration (and the variables
are restored); concretely,
`fnrot f() { fnrot g() { rott "made"; } } f(); g();` outputs
`["made"]`. -/
theorem funcdecl_survives_call :
    (∀ fuel s f g ps b,
        lookupA s.functions f = some { parameters := [], body := [Stmt.funcDecl g ps b] } →
        evaluate (fuel + 3) (Expr.call (some f) []) s
            = (Except.ok Value.null,
               { vars := s.vars,
                 functions := setA s.functions g { parameters := ps, body := b },
                 output := s.output })
          ∧ lookupA (setA s.functions g { parameters := ps, body := b }) g
              = some { parameters := ps, body := b })
      ∧ executeBrainRot 100 innerDeclProgram = some { output := ["made"], error := none } := by
  constructor
  · intro fuel s f g ps b h
    constructor
    · simp only [evaluate, runI, stepI, h]
    · exact lookupA_setA_self s.functions g _
  · decide!

/-- Witness for C10: calling `f` whose body declares `g` leaves `g`
registered and the variables restored. -/
theorem funcdecl_survives_call_witness :
    evaluate 3 (Expr.call (some "f") []) c10WitState
        = (Except.ok Value.null,
           { vars := c10WitState.vars,
             functions := setA c10WitState.functions "g"
               { parameters := [], body := [Stmt.printStmt (Expr.lit (Value.str "made"))] },
             output := c10WitState.output })
      ∧ lookupA (setA c10WitState.functions "g"
            { parameters := [], body := [Stmt.printStmt (Expr.lit (Value.str "made"))] }) "g"
          = some { parameters := [], body := [Stmt.printStmt (Expr.lit (Value.str "made"))] } :=
  funcdecl_survives_call.1 0 c10WitState "f" "g" []
    [Stmt.printStmt (Expr.lit (Value.str "made"))] (by rfl)

end BrainRot
